import Mathlib

/-!
Shallow embedding of the vrb geometry-buffer subsystem: `Geometry.cpp`,
`VertexArray.cpp`, `Texture.cpp` and the `RenderState`/`TextureGL` headers.

Machine integers are embedded as `Nat`/`Int` with explicit reductions
modulo 2^16 where the code narrows to `GLushort`.  The interleaved GPU
byte buffer written through `glBufferSubData` is abstracted to the
sequence of emitted triangle corners (recorded by the 1-based vertex
entries of the stored face) together with the emitted `GLushort` index
list; byte offsets carry no extra information beyond that sequence.
Vector arithmetic (the `Vector` class, whose source is not part of the
five files) is embedded over `ℝ`, modelled from the spec.
-/

namespace Vrb

/-- Maximum value of a `GLushort`, i.e. `std::numeric_limits<GLushort>::max()`
as used by `CopyIndecies` in Geometry.cpp. -/
def glushortMax : Int := 65535

/-- Number of distinct `GLushort` values; `static_cast<GLushort>(v)` on an
`int` computes `v` modulo this constant. -/
def glushortMod : Int := 65536

/-- CopyIndecies (Geometry.cpp, lines 28-37): copies a list of `int`
indices into a `GLushort` list.  A value `v ≥ glushortMax` logs a
`VRB_ERROR` but is still pushed, truncated by the `static_cast`.  The
result is the target list paired with the number of errors logged. -/
def CopyIndecies : List Int → List Nat × Nat
  | [] => ([], 0)
  | v :: rest =>
    let e := if glushortMax ≤ v then 1 else 0
    let r := CopyIndecies rest
    ((v % glushortMod).toNat :: r.1, e + r.2)

/-- Geometry::Face (stored form): three parallel `GLushort` index lists. -/
structure Face where
  vertices : List Nat
  uvs : List Nat
  normals : List Nat
deriving DecidableEq

/-- Inner loop of Geometry::UpdateBuffers (lines 178-225): starting at
corner `ix`, emit `t` fan triangles for face `f`, threading the running
`GLushort` counter `count`.  Each triangle records the face entries
`(vertices[0], vertices[ix], vertices[ix+1])` and pushes three
successive counter values onto the index list.  Returns the triangle
list, the pushed index values, and the final counter. -/
def emitTriangles (f : Face) : Nat → Nat → Nat → List (Nat × Nat × Nat) × List Nat × Nat
  | _, 0, count => ([], [], count)
  | ix, t + 1, count =>
    let c0 := count
    let c1 := (c0 + 1) % 65536
    let c2 := (c1 + 1) % 65536
    let tri := (f.vertices.getD 0 0, f.vertices.getD ix 0, f.vertices.getD (ix + 1) 0)
    let r := emitTriangles f (ix + 1) t ((c2 + 1) % 65536)
    (tri :: r.1, c0 :: c1 :: c2 :: r.2.1, r.2.2)

/-- Face loop of Geometry::UpdateBuffers (lines 162-226): a face with no
vertices terminates the loop (`break`, line 164); a face with 1 or 2
vertices logs an error and is skipped (`continue`, line 170); a face
with at least 3 vertices is fan-triangulated starting at `ix = 1` with
`V - 2` triangles. -/
def updateBuffersLoop : List Face → Nat → List (Nat × Nat × Nat) × List Nat
  | [], _ => ([], [])
  | f :: rest, count =>
    if f.vertices.length = 0 then ([], [])
    else if f.vertices.length < 3 then updateBuffersLoop rest count
    else
      let r := emitTriangles f 1 (f.vertices.length - 2) count
      let r2 := updateBuffersLoop rest r.2.2
      (r.1 ++ r2.1, r.2.1 ++ r2.2)

/-- Geometry::UpdateBuffers: the populate/sync pass over the stored
faces, with the index counter starting at 0 (line 159). -/
def UpdateBuffers (faces : List Face) : List (Nat × Nat × Nat) × List Nat :=
  updateBuffersLoop faces 0

/-- Fan triangulation of one face as the spec words it: triangles
`(anchor, vertex[i], vertex[i+1])` for `i` in `[1, V-2]`, the anchor
being the face's first vertex entry. -/
def fanTriangles (f : Face) : List (Nat × Nat × Nat) :=
  (List.range (f.vertices.length - 2)).map fun i =>
    (f.vertices.getD 0 0, f.vertices.getD (i + 1) 0, f.vertices.getD (i + 2) 0)

/-- Concatenation of the per-face fan triangles over a face list. -/
def fanFaces : List Face → List (Nat × Nat × Nat)
  | [] => []
  | f :: rest => fanTriangles f ++ fanFaces rest

/-- Total fan-triangle count of a face list: the sum of `V - 2`
(truncated subtraction) over the faces. -/
def sumTriangles (faces : List Face) : Nat :=
  (faces.map fun f => f.vertices.length - 2).sum

theorem getD_congr (f : Face) {a b : Nat} (h : a = b) :
    f.vertices.getD a 0 = f.vertices.getD b 0 := by rw [h]

theorem emitTriangles_fst (f : Face) :
    ∀ (t ix c : Nat), (emitTriangles f ix t c).1 =
      (List.range t).map fun i =>
        (f.vertices.getD 0 0, f.vertices.getD (ix + i) 0, f.vertices.getD (ix + i + 1) 0) := by
  intro t
  induction t with
  | zero => intro ix c; simp [emitTriangles]
  | succ n ih =>
    intro ix c
    rw [List.range_succ_eq_map, List.map_cons, List.map_map]
    simp only [emitTriangles, ih (ix + 1)]
    rw [List.cons.injEq]
    refine ⟨?_, ?_⟩
    · rw [Prod.mk.injEq, Prod.mk.injEq]
      exact ⟨rfl, getD_congr f (by omega), getD_congr f (by omega)⟩
    · apply List.map_congr_left
      intro a _
      simp only [Function.comp_apply]
      rw [Prod.mk.injEq, Prod.mk.injEq]
      exact ⟨rfl, getD_congr f (by omega), getD_congr f (by omega)⟩

theorem emitTriangles_snd (f : Face) :
    ∀ (t ix c : Nat), c < 65536 →
      (emitTriangles f ix t c).2 =
        ((List.range (3 * t)).map fun k => (c + k) % 65536, (c + 3 * t) % 65536) := by
  intro t
  induction t with
  | zero =>
    intro ix c hc
    simp [emitTriangles, Nat.mod_eq_of_lt hc]
  | succ n ih =>
    intro ix c hc
    have h3 : ((c + 1) % 65536 + 1) % 65536 = (c + 2) % 65536 := by
      rw [Nat.mod_add_mod]
    have h4 : ((c + 2) % 65536 + 1) % 65536 = (c + 3) % 65536 := by
      rw [Nat.mod_add_mod]
    have hlt : (c + 3) % 65536 < 65536 := Nat.mod_lt _ (by omega)
    simp only [emitTriangles, h3, h4, ih (ix + 1) ((c + 3) % 65536) hlt]
    rw [Prod.mk.injEq]
    refine ⟨?_, ?_⟩
    · have hexp : 3 * (n + 1) = 3 + 3 * n := by omega
      rw [hexp, List.range_add, List.map_append, List.map_map]
      have hr3 : List.range 3 = [0, 1, 2] := by decide
      rw [hr3]
      simp only [List.map_cons, List.map_nil, Nat.add_zero, List.cons_append, List.nil_append]
      rw [Nat.mod_eq_of_lt hc, List.cons.injEq, List.cons.injEq, List.cons.injEq]
      refine ⟨rfl, rfl, rfl, ?_⟩
      apply List.map_congr_left
      intro a _
      simp only [Function.comp_apply]
      rw [Nat.mod_add_mod]
      congr 1
      omega
    · rw [Nat.mod_add_mod]
      congr 1
      omega

theorem emitTriangles_fst_fan (f : Face) (c : Nat) :
    (emitTriangles f 1 (f.vertices.length - 2) c).1 = fanTriangles f := by
  rw [emitTriangles_fst, fanTriangles]
  apply List.map_congr_left
  intro a _
  rw [Prod.mk.injEq, Prod.mk.injEq]
  exact ⟨rfl, getD_congr f (by omega), getD_congr f (by omega)⟩

theorem updateBuffersLoop_eq (faces : List Face) :
    ∀ c : Nat, c < 65536 → (∀ f ∈ faces, 3 ≤ f.vertices.length) →
      updateBuffersLoop faces c =
        (fanFaces faces, (List.range (3 * sumTriangles faces)).map fun k => (c + k) % 65536) := by
  induction faces with
  | nil => intro c _ _; simp [updateBuffersLoop, fanFaces, sumTriangles]
  | cons f rest ih =>
    intro c hc hall
    have hf : 3 ≤ f.vertices.length := hall f (by simp)
    have hne : ¬ f.vertices.length = 0 := by omega
    have hge : ¬ f.vertices.length < 3 := by omega
    have hrest : ∀ g ∈ rest, 3 ≤ g.vertices.length := fun g hg => hall g (by simp [hg])
    have hlt : (c + 3 * (f.vertices.length - 2)) % 65536 < 65536 := Nat.mod_lt _ (by omega)
    simp only [updateBuffersLoop, hne, hge, if_false,
      emitTriangles_snd f (f.vertices.length - 2) 1 c hc,
      ih _ hlt hrest]
    rw [Prod.mk.injEq]
    refine ⟨?_, ?_⟩
    · rw [fanFaces, List.append_cancel_right_eq, emitTriangles_fst_fan]
    · have hsum : sumTriangles (f :: rest) = (f.vertices.length - 2) + sumTriangles rest := by
        simp [sumTriangles]
      rw [hsum, Nat.mul_add, List.range_add, List.map_append, List.map_map,
        List.append_cancel_left_eq]
      apply List.map_congr_left
      intro a _
      simp only [Function.comp_apply]
      rw [Nat.mod_add_mod]
      congr 1
      omega

theorem updateBuffersLoop_fst_count_irrel (faces : List Face) :
    ∀ c c' : Nat, (updateBuffersLoop faces c).1 = (updateBuffersLoop faces c').1 := by
  induction faces with
  | nil => intro c c'; rfl
  | cons f rest ih =>
    intro c c'
    by_cases h0 : f.vertices.length = 0
    · simp [updateBuffersLoop, h0]
    · by_cases h3 : f.vertices.length < 3
      · simp only [updateBuffersLoop, h0, if_false, h3, if_true]
        exact ih c c'
      · simp only [updateBuffersLoop, h0, if_false, h3]
        rw [emitTriangles_fst, emitTriangles_fst, List.append_cancel_left_eq]
        exact ih _ _

theorem range_map_mod (n : Nat) (h : n ≤ 65536) :
    (List.range n).map (fun k => (0 + k) % 65536) = List.range n := by
  have h1 : ∀ k ∈ List.range n, (0 + k) % 65536 = id k := by
    intro k hk
    rw [List.mem_range] at hk
    show (0 + k) % 65536 = k
    rw [Nat.zero_add]
    exact Nat.mod_eq_of_lt (by omega)
  exact (List.map_congr_left h1).trans (List.map_id _)

/-- Claim C1: for a face list in which every stored face has V ≥ 3
vertices, and whose total emitted index count fits the 16-bit index
type, UpdateBuffers fan-triangulates each face anchored at its first
vertex — per face exactly V−2 triangles (anchor, vertex[i], vertex[i+1])
for i ∈ [1, V−2], faces in input order — and the emitted index list is
exactly 0, 1, 2, …, 3·Σ(V−2)−1: strictly sequential from 0, no reuse. -/
theorem c1_fan_triangulation (faces : List Face)
    (hall : ∀ f ∈ faces, 3 ≤ f.vertices.length)
    (htot : 3 * sumTriangles faces ≤ 65536) :
    (UpdateBuffers faces).1 = fanFaces faces ∧
    (UpdateBuffers faces).2 = List.range (3 * sumTriangles faces) ∧
    (∀ f ∈ faces, (fanTriangles f).length = f.vertices.length - 2) := by
  have h := updateBuffersLoop_eq faces 0 (by omega) hall
  refine ⟨congrArg Prod.fst h, (congrArg Prod.snd h).trans (range_map_mod _ htot), ?_⟩
  intro f _
  rw [fanTriangles, List.length_map, List.length_range]

/-- Quad face used to instantiate the triangulation claims: stored
vertex entries 1, 2, 3, 4 (1-based pool references). -/
def quadFace : Face := ⟨[1, 2, 3, 4], [], [1, 2, 3, 4]⟩

theorem c1_fan_triangulation_witness :
    (∀ f ∈ [quadFace], 3 ≤ f.vertices.length) ∧
    3 * sumTriangles [quadFace] ≤ 65536 ∧
    ((UpdateBuffers [quadFace]).1 = fanFaces [quadFace] ∧
      (UpdateBuffers [quadFace]).2 = List.range (3 * sumTriangles [quadFace]) ∧
      (∀ f ∈ [quadFace], (fanTriangles f).length = f.vertices.length - 2)) :=
  ⟨by decide, by decide, c1_fan_triangulation [quadFace] (by decide) (by decide)⟩

/-- Face with an empty vertex index list, as stored by AddFace for an
empty input list. -/
def emptyFace : Face := ⟨[], [], []⟩

/-- Claim C4 counterexample: a 0-vertex face does not merely drop out of
the draw set — it terminates the population loop (the `break` at
Geometry.cpp line 164), so a perfectly valid quad face placed after it
emits nothing, although the same quad alone emits two triangles. -/
theorem c4_counterexample :
    (UpdateBuffers [emptyFace, quadFace]).1 = [] ∧
    (UpdateBuffers [quadFace]).1 = [(1, 2, 3), (1, 3, 4)] ∧
    ([] : List (Nat × Nat × Nat)) ≠ [(1, 2, 3), (1, 3, 4)] := by
  refine ⟨by decide, by decide, by decide⟩

/-- Faces that actually reach triangulation, per the amended claim: walk
the face list in order; a face with 0 vertices ends the walk, a face
with 1 or 2 vertices is dropped, and a face with at least 3 vertices is
kept. -/
def validPrefixFaces : List Face → List Face
  | [] => []
  | f :: rest =>
    if f.vertices.length = 0 then []
    else if 3 ≤ f.vertices.length then f :: validPrefixFaces rest
    else validPrefixFaces rest

/-- Claim C4 (amended): during buffer population, faces with 1 or 2
vertices are excluded from the emitted triangle set and processing
continues with the subsequent faces, but a face with 0 vertices instead
terminates the pass, excluding it and every face after it — valid faces
are unaffected only by 1- or 2-vertex invalid faces before them.  The
emitted triangles are the fan triangles of the kept faces. -/
theorem c4_invalid_faces_excluded (faces : List Face) :
    (UpdateBuffers faces).1 = fanFaces (validPrefixFaces faces) := by
  rw [UpdateBuffers]
  induction faces with
  | nil => rfl
  | cons f rest ih =>
    by_cases h0 : f.vertices.length = 0
    · simp only [updateBuffersLoop, validPrefixFaces, if_pos h0]
      rfl
    · by_cases h3 : f.vertices.length < 3
      · have hnot : ¬ 3 ≤ f.vertices.length := by omega
        simp only [updateBuffersLoop, validPrefixFaces, if_neg h0, if_pos h3, if_neg hnot]
        exact ih
      · have hyes : 3 ≤ f.vertices.length := by omega
        simp only [updateBuffersLoop, validPrefixFaces, if_neg h0, if_neg h3, if_pos hyes]
        rw [fanFaces]
        congr 1
        · exact emitTriangles_fst_fan f 0
        · rw [updateBuffersLoop_fst_count_irrel rest _ 0]
          exact ih

theorem CopyIndecies_fst (l : List Int) :
    (CopyIndecies l).1 = l.map fun v => (v % glushortMod).toNat := by
  induction l with
  | nil => rfl
  | cons v rest ih => simp only [CopyIndecies, List.map_cons, ih]

theorem CopyIndecies_snd (l : List Int) :
    (CopyIndecies l).2 = l.countP fun v => decide (glushortMax ≤ v) := by
  induction l with
  | nil => rfl
  | cons v rest ih =>
    rw [List.countP_cons]
    by_cases h : glushortMax ≤ v
    · simp only [CopyIndecies, if_pos h, ih, h, decide_eq_true_eq, if_pos]
      omega
    · simp only [CopyIndecies, if_neg h, ih, h, decide_eq_true_eq, if_neg, not_false_iff]
      omega

/-- Claim C9: for every index value handed to CopyIndecies (hence to the
three index lists of AddFace), the stored 16-bit entry is the input
truncated to 16 bits (value mod 2^16, also for negative values), an
error is flagged exactly for values at least the GLushort limit
(numeric_limits<GLushort>::max() = 65535), and flagged values are still
stored rather than rejected: the output keeps one entry per input. -/
theorem c9_index_truncation (l : List Int) :
    (CopyIndecies l).1 = (l.map fun v => (v % glushortMod).toNat) ∧
    (CopyIndecies l).2 = (l.countP fun v => decide (glushortMax ≤ v)) ∧
    (CopyIndecies l).1.length = l.length :=
  ⟨CopyIndecies_fst l, CopyIndecies_snd l, by rw [CopyIndecies_fst, List.length_map]⟩

/-- Modelled from the spec: the Vector class, whose source file is not
among the provided files.  A 3-component float vector embedded over ℝ;
default-constructed vectors are zero (spec section 3: zero-filled
growth, zero-vector sentinel). -/
structure Vec3 where
  x : ℝ
  y : ℝ
  z : ℝ

/-- Zero vector, the cZeroVector sentinel of VertexArray.cpp. -/
def Vec3.zero : Vec3 := ⟨0, 0, 0⟩

/-- Componentwise vector sum (Vector operator+). -/
noncomputable def Vec3.add (a b : Vec3) : Vec3 := ⟨a.x + b.x, a.y + b.y, a.z + b.z⟩

/-- Componentwise vector difference (Vector operator-). -/
noncomputable def Vec3.sub (a b : Vec3) : Vec3 := ⟨a.x - b.x, a.y - b.y, a.z - b.z⟩

/-- Vector times scalar (Vector operator* with a float). -/
noncomputable def Vec3.smul (c : ℝ) (a : Vec3) : Vec3 := ⟨c * a.x, c * a.y, c * a.z⟩

/-- Vector divided by scalar (Vector operator/ with a float). -/
noncomputable def Vec3.divScalar (a : Vec3) (c : ℝ) : Vec3 := ⟨a.x / c, a.y / c, a.z / c⟩

/-- Modelled from the spec: Vector::Cross, the standard cross product
(spec: flat normal = normalize(cross(v1−v0, v2−v0))). -/
noncomputable def Vec3.cross (a b : Vec3) : Vec3 :=
  ⟨a.y * b.z - a.z * b.y, a.z * b.x - a.x * b.z, a.x * b.y - a.y * b.x⟩

/-- Modelled from the spec: Vector::Magnitude, the Euclidean length. -/
noncomputable def Vec3.magnitude (a : Vec3) : ℝ :=
  Real.sqrt (a.x * a.x + a.y * a.y + a.z * a.z)

/-- Modelled from the spec: Vector::Normalize, scaling the vector by the
reciprocal of its magnitude. -/
noncomputable def Vec3.normalize (a : Vec3) : Vec3 := a.divScalar a.magnitude

/-- Modelled from the spec: the Color class, 4×float32, zero default
(the cZeroColor sentinel). -/
structure Color where
  r : ℝ
  g : ℝ
  b : ℝ
  a : ℝ

/-- Zero color, the cZeroColor sentinel of VertexArray.cpp. -/
def Color.zero : Color := ⟨0, 0, 0, 0⟩

/-- VertexArray::State::NormalState (VertexArray.cpp lines 20-25): a
normal with its accumulation count; default-constructed entries carry
count 0 and the default (zero) normal, entries built from a vector
carry count 1. -/
structure NormalState where
  normal : Vec3
  count : ℝ

/-- Default NormalState: zero normal, zero count. -/
def NormalState.default : NormalState := ⟨Vec3.zero, 0⟩

/-- VertexArray::State: the four index-aligned attribute pools. -/
structure VertexArray where
  vertices : List Vec3
  normals : List NormalState
  uvs : List Vec3
  colors : List Color

/-- VertexArray::GetVertex (lines 64-70): the signed int index is
compared with the container size after conversion to the unsigned size
type, so every negative index (such as −1) is out of range; an
out-of-range lookup returns the zero-vector sentinel. -/
def VertexArray.GetVertex (va : VertexArray) (aIndex : Int) : Vec3 :=
  if aIndex < 0 ∨ (va.vertices.length : Int) ≤ aIndex then Vec3.zero
  else va.vertices.getD aIndex.toNat Vec3.zero

/-- VertexArray::GetNormal (lines 72-78): as GetVertex, over the normal
pool, projecting out the stored normal vector. -/
def VertexArray.GetNormal (va : VertexArray) (aIndex : Int) : Vec3 :=
  if aIndex < 0 ∨ (va.normals.length : Int) ≤ aIndex then Vec3.zero
  else (va.normals.getD aIndex.toNat NormalState.default).normal

/-- VertexArray::GetUV (lines 80-86): as GetVertex, over the UV pool. -/
def VertexArray.GetUV (va : VertexArray) (aIndex : Int) : Vec3 :=
  if aIndex < 0 ∨ (va.uvs.length : Int) ≤ aIndex then Vec3.zero
  else va.uvs.getD aIndex.toNat Vec3.zero

/-- VertexArray::GetColor (lines 89-95): as GetVertex, over the color
pool, returning the zero-color sentinel when out of range. -/
def VertexArray.GetColor (va : VertexArray) (aIndex : Int) : Color :=
  if aIndex < 0 ∨ (va.colors.length : Int) ≤ aIndex then Color.zero
  else va.colors.getD aIndex.toNat Color.zero

/-- VertexArray::SetNormalCount (lines 57-62): grow the normal pool to
`aCount` entries with default-constructed (zero-count) entries; never
shrinks. -/
def VertexArray.SetNormalCount (va : VertexArray) (aCount : Nat) : VertexArray :=
  if va.normals.length < aCount then
    { va with normals :=
        va.normals ++ List.replicate (aCount - va.normals.length) NormalState.default }
  else va

/-- VertexArray::AppendNormal (lines 135-139): push a NormalState with
count 1 and return the new 0-based index. -/
def VertexArray.AppendNormal (va : VertexArray) (aNormal : Vec3) : VertexArray × Nat :=
  ({ va with normals := va.normals ++ [⟨aNormal, 1⟩] }, va.normals.length)

/-- VertexArray::AddNormal (lines 141-151): grow the pool if the slot is
past the end (the same guard as SetNormalCount), then replace the slot
with (normalize((old_normal × old_count + contribution) / (old_count+1)),
old_count+1).  A negative index skips the resize guard and indexes out
of bounds in the source (undefined behavior); it is embedded as a
no-op, and no claim depends on that case. -/
noncomputable def VertexArray.AddNormal (va : VertexArray) (aIndex : Int) (aNormal : Vec3) :
    VertexArray :=
  if aIndex < 0 then va
  else
    let i := aIndex.toNat
    let va1 := va.SetNormalCount (i + 1)
    let ns := va1.normals.getD i NormalState.default
    let updated := Vec3.normalize
      (Vec3.divScalar (Vec3.add (Vec3.smul ns.count ns.normal) aNormal) (ns.count + 1))
    { va1 with normals := va1.normals.set i ⟨updated, ns.count + 1⟩ }

/-- Claim C5: every lookup outside the current extent of a pool —
negative indices such as −1 (cast through the unsigned size type)
included — returns the zero-valued sentinel (zero vector, zero color)
for each of the four pools; the getters are total pure functions, so
they never fault and leave the pool unchanged. -/
theorem c5_out_of_range_sentinel (va : VertexArray) (i : Int) :
    ((i < 0 ∨ (va.vertices.length : Int) ≤ i) → va.GetVertex i = Vec3.zero) ∧
    ((i < 0 ∨ (va.normals.length : Int) ≤ i) → va.GetNormal i = Vec3.zero) ∧
    ((i < 0 ∨ (va.uvs.length : Int) ≤ i) → va.GetUV i = Vec3.zero) ∧
    ((i < 0 ∨ (va.colors.length : Int) ≤ i) → va.GetColor i = Color.zero) :=
  ⟨fun h => by rw [VertexArray.GetVertex, if_pos h],
   fun h => by rw [VertexArray.GetNormal, if_pos h],
   fun h => by rw [VertexArray.GetUV, if_pos h],
   fun h => by rw [VertexArray.GetColor, if_pos h]⟩

/-- Nonempty sample pool used to instantiate the sentinel claim. -/
noncomputable def samplePool : VertexArray :=
  ⟨[⟨1, 2, 3⟩], [⟨⟨0, 0, 1⟩, 1⟩], [⟨5, 7, 0⟩], [⟨1, 1, 1, 1⟩]⟩

theorem c5_out_of_range_sentinel_witness :
    samplePool.GetVertex (-1) = Vec3.zero ∧
    samplePool.GetNormal (-1) = Vec3.zero ∧
    samplePool.GetUV (-1) = Vec3.zero ∧
    samplePool.GetColor (-1) = Color.zero :=
  ⟨(c5_out_of_range_sentinel samplePool (-1)).1 (Or.inl (by norm_num)),
   (c5_out_of_range_sentinel samplePool (-1)).2.1 (Or.inl (by norm_num)),
   (c5_out_of_range_sentinel samplePool (-1)).2.2.1 (Or.inl (by norm_num)),
   (c5_out_of_range_sentinel samplePool (-1)).2.2.2 (Or.inl (by norm_num))⟩

/-- Texture target as consumed by Geometry::State::UVLength: the only
distinction drawn is GL_TEXTURE_CUBE_MAP versus anything else
(GL_TEXTURE_2D, the Texture.cpp default). -/
inductive TextureTarget
  | texture2D
  | cubeMap
deriving DecidableEq

/-- RenderState collaborator, reduced to the part Geometry consumes for
buffer layout: the optionally bound texture and its target.  HasTexture
is modelled from the spec (texture-presence flag) since RenderState.cpp
is not among the provided files; GetTexture returns the bound texture. -/
structure RenderState where
  texture : Option TextureTarget
deriving DecidableEq

/-- RenderState::GetTexture as consumed by UVLength. -/
def RenderState.GetTexture (rs : RenderState) : Option TextureTarget := rs.texture

/-- Modelled from the spec: RenderState::HasTexture, the
texture-presence flag (RenderState.cpp is not among the provided files). -/
def RenderState.HasTexture (rs : RenderState) : Bool := rs.texture.isSome

/-- Geometry::State::UVLength (Geometry.cpp lines 55-61): 0 floats with
no texture, 3 for a cube-map target, else 2. -/
def UVLength (rs : RenderState) : Nat :=
  match rs.GetTexture with
  | none => 0
  | some t => if t = TextureTarget.cubeMap then 3 else 2

/-- Geometry::State::UVSize (lines 63-65): UV floats times sizeof(float). -/
def UVSize (rs : RenderState) : Nat := UVLength rs * 4

/-- Geometry::State::PositionSize (lines 67-69): 3 × sizeof(float). -/
def PositionSize : Nat := 3 * 4

/-- Geometry::State::NormalSize (lines 71-73): 3 × sizeof(float). -/
def NormalSize : Nat := 3 * 4

/-- Geometry::State::VertexSize (lines 75-77): the interleaved vertex
stride in bytes. -/
def VertexSize (rs : RenderState) : Nat := PositionSize + NormalSize + UVSize rs

/-- Claim C7: the interleaved vertex stride is 24 bytes with no bound
texture, 32 bytes with a 2D texture, 36 bytes with a cube-map target;
with no texture the UV component contributes no bytes at all, the
stride being exactly position (12) plus normal (12). -/
theorem c7_vertex_stride :
    VertexSize ⟨none⟩ = 24 ∧
    VertexSize ⟨some TextureTarget.texture2D⟩ = 32 ∧
    VertexSize ⟨some TextureTarget.cubeMap⟩ = 36 ∧
    UVSize ⟨none⟩ = 0 ∧
    VertexSize ⟨none⟩ = PositionSize + NormalSize :=
  ⟨rfl, rfl, rfl, rfl, rfl⟩

/-- Geometry::State (Geometry.cpp lines 43-52) together with an
embedding of its observable effects: `errors` counts VRB_ERROR logs and
`gpuTriangles`/`gpuIndices` hold the content last uploaded to the two
GPU buffers (the corner sequence abstraction of UpdateBuffers).  GL
buffer handles are `Nat`, 0 meaning not allocated, as in the source. -/
structure Geometry where
  renderState : Option RenderState
  vertexArray : Option VertexArray
  faces : List Face
  vertexCount : Int
  triangleCount : Int
  vertexObjectId : Nat
  indexObjectId : Nat
  errors : Nat
  gpuTriangles : List (Nat × Nat × Nat)
  gpuIndices : List Nat

/-- Freshly constructed Geometry: counters zero, no GL objects, no
render state, no vertex array (Geometry::State constructor, line 52). -/
def geomEmpty : Geometry := ⟨none, none, [], 0, 0, 0, 0, 0, [], []⟩

/-- Flat face normal computed by the derived-normal path of
Geometry::AddFace (lines 267-268): with `point` the pool vertex at
`aVertices[0] - 1`, the normalized cross product of the edges to the
pool vertices at `aVertices[1] - 1` and `aVertices[2] - 1`.  The source
indexes aVertices without a length check; lists shorter than 3 are
embedded with default-0 entries (undefined behavior in C++). -/
noncomputable def flatNormal (va1 : VertexArray) (aVertices : List Int) : Vec3 :=
  let point := va1.GetVertex (aVertices.headD 0 - 1)
  (Vec3.cross (Vec3.sub (va1.GetVertex (aVertices.getD 1 0 - 1)) point)
      (Vec3.sub (va1.GetVertex (aVertices.getD 2 0 - 1)) point)).normalize

/-- Geometry::AddFace (Geometry.cpp lines 236-282).  Counters update
before validation (lines 243-244, with the size_t arithmetic of
`aVertices.size() - 2` landing back in the signed counter, so a face
with fewer than 2 vertices decrements it); a face with fewer than 3
stored vertices logs an error (line 257) but is still pushed (line 281);
the derived-flat-normal path (lines 263-279) runs when the input normal
list is empty or starts with the 0 sentinel and a vertex array is
attached.  The source reads aVertices[0..2] there without a length
check (undefined behavior for shorter lists), embedded as default-0
lookups; the `index <= 0` check on the unsigned loop variable (line
271) flags exactly the zero entries. -/
noncomputable def Geometry.AddFace (g : Geometry)
    (aVertices aUVs aNormals : List Int) : Geometry :=
  let vertexCount := g.vertexCount + aVertices.length
  let triangleCount := g.triangleCount + ((aVertices.length : Int) - 2)
  let cv := CopyIndecies aVertices
  let faceVertices := cv.1
  let shortErr : Nat := if faceVertices.length < 3 then 1 else 0
  let cuv := if 0 < aUVs.length then CopyIndecies aUVs else ([], 0)
  if 0 < aNormals.length ∧ aNormals.headD 0 ≠ 0 then
    let cn := CopyIndecies aNormals
    { g with faces := g.faces ++ [⟨faceVertices, cuv.1, cn.1⟩],
             vertexCount := vertexCount, triangleCount := triangleCount,
             errors := g.errors + cv.2 + shortErr + cuv.2 + cn.2 }
  else
    match g.vertexArray with
    | none =>
      { g with faces := g.faces ++ [⟨faceVertices, cuv.1, []⟩],
               vertexCount := vertexCount, triangleCount := triangleCount,
               errors := g.errors + cv.2 + shortErr + cuv.2 }
    | some va =>
      let va1 := va.SetNormalCount va.vertices.length
      let normal := flatNormal va1 aVertices
      let va2 := (va1.AppendNormal normal).1
      let zeroIdxErrs := faceVertices.countP fun ix => decide (ix = 0)
      let va3 := faceVertices.foldl
        (fun acc ix =>
          if (0.00001 : ℝ) < normal.magnitude then acc.AddNormal ((ix : Int) - 1) normal
          else acc) va2
      { g with vertexArray := some va3,
               faces := g.faces ++ [⟨faceVertices, cuv.1, faceVertices⟩],
               vertexCount := vertexCount, triangleCount := triangleCount,
               errors := g.errors + cv.2 + shortErr + cuv.2 + zeroIdxErrs }

/-- Geometry::GetFaceCount (lines 284-287). -/
def Geometry.GetFaceCount (g : Geometry) : Nat := g.faces.length

theorem AddFace_fields (g : Geometry) (vs us ns : List Int) :
    (Geometry.AddFace g vs us ns).vertexCount = g.vertexCount + vs.length ∧
    (Geometry.AddFace g vs us ns).triangleCount = g.triangleCount + ((vs.length : Int) - 2) ∧
    (Geometry.AddFace g vs us ns).faces.length = g.faces.length + 1 ∧
    (vs.length < 3 → g.errors < (Geometry.AddFace g vs us ns).errors) := by
  have hlen : (CopyIndecies vs).1.length = vs.length := by
    rw [CopyIndecies_fst, List.length_map]
  refine ⟨?_, ?_, ?_, fun h => ?_⟩
  · simp only [Geometry.AddFace]
    split
    · rfl
    · split <;> rfl
  · simp only [Geometry.AddFace]
    split
    · rfl
    · split <;> rfl
  · simp only [Geometry.AddFace]
    split
    · simp
    · split <;> simp
  · simp only [Geometry.AddFace, hlen, if_pos h]
    split
    · simp
      try omega
    · split <;> (simp; try omega)

/-- Sum of vertex counts over a call list, as both spec and code track. -/
def vertexSum (calls : List (List Int × List Int × List Int)) : Int :=
  (calls.map fun c => (c.1.length : Int)).sum

/-- Triangle-count invariant exactly as the claim words it: sum of
max(0, V−2) over the submitted faces. -/
def claimTriangleSum (calls : List (List Int × List Int × List Int)) : Int :=
  (calls.map fun c => max 0 ((c.1.length : Int) - 2)).sum

/-- Signed triangle-count sum the code actually maintains: V−2 per
submitted face, negative for faces with fewer than 2 vertices. -/
def codeTriangleSum (calls : List (List Int × List Int × List Int)) : Int :=
  (calls.map fun c => (c.1.length : Int) - 2).sum

/-- Sequence of AddFace calls folded over a starting geometry. -/
noncomputable def addFaces (g : Geometry)
    (calls : List (List Int × List Int × List Int)) : Geometry :=
  calls.foldl (fun acc c => acc.AddFace c.1 c.2.1 c.2.2) g

/-- Claim C2 counterexample: one AddFace call with a single vertex.  The
claim's invariant says the running triangleCount is max(0, 1−2) = 0,
but the code adds `aVertices.size() - 2` to the signed counter, leaving
−1. -/
theorem c2_counterexample :
    (Geometry.AddFace geomEmpty [1] [] []).triangleCount = -1 ∧
    claimTriangleSum [([1], [], [])] = 0 ∧
    ((-1 : Int) ≠ 0) := by
  refine ⟨?_, by norm_num [claimTriangleSum], by norm_num⟩
  have h := (AddFace_fields geomEmpty [1] [] []).2.1
  simpa [geomEmpty] using h

/-- Claim C2 (amended): after any sequence of AddFace calls the running
vertexCount is the sum of the submitted vertex counts and the running
triangleCount is the signed sum of (V−2) over the submitted faces — not
max(0, V−2): a 0- or 1-vertex face decrements the counter.  Both
counters are updated unconditionally on every call, before validation,
so a face flagged for having fewer than 3 vertices still contributes. -/
theorem c2_counter_totals (g : Geometry) (calls : List (List Int × List Int × List Int)) :
    (addFaces g calls).vertexCount = g.vertexCount + vertexSum calls ∧
    (addFaces g calls).triangleCount = g.triangleCount + codeTriangleSum calls := by
  induction calls generalizing g with
  | nil => simp [addFaces, vertexSum, codeTriangleSum]
  | cons c rest ih =>
    have h := AddFace_fields g c.1 c.2.1 c.2.2
    have hr := ih (g.AddFace c.1 c.2.1 c.2.2)
    simp only [addFaces, List.foldl_cons] at hr ⊢
    constructor
    · rw [hr.1, h.1, vertexSum, vertexSum, List.map_cons, List.sum_cons]
      ring
    · rw [hr.2, h.2.1, codeTriangleSum, codeTriangleSum, List.map_cons, List.sum_cons]
      ring

/-- Claim C3 counterexample: adding a face with 2 vertices.  The claim
says the face is not stored and the stored face count stays 0, but
AddFace pushes the face unconditionally (Geometry.cpp line 281), so
GetFaceCount becomes 1. -/
theorem c3_counterexample :
    (Geometry.AddFace geomEmpty [1, 2] [] []).GetFaceCount = 1 ∧
    geomEmpty.GetFaceCount = 0 ∧ (1 : Nat) ≠ 0 := by
  refine ⟨?_, rfl, by norm_num⟩
  have h := (AddFace_fields geomEmpty [1, 2] [] []).2.2.1
  simpa [Geometry.GetFaceCount, geomEmpty] using h

/-- Claim C3 (amended): for an AddFace call whose vertex index list has
fewer than 3 entries an error is recorded, but the face IS stored: the
stored face count grows by one on every AddFace call, short faces
included (they are filtered out later, during buffer population). -/
theorem c3_short_face_logged_but_stored (g : Geometry) (vs us ns : List Int) :
    (Geometry.AddFace g vs us ns).GetFaceCount = g.GetFaceCount + 1 ∧
    (vs.length < 3 → g.errors < (Geometry.AddFace g vs us ns).errors) :=
  ⟨(AddFace_fields g vs us ns).2.2.1, (AddFace_fields g vs us ns).2.2.2⟩

theorem c3_short_face_logged_but_stored_witness :
    (Geometry.AddFace geomEmpty [1, 2] [] []).GetFaceCount = geomEmpty.GetFaceCount + 1 ∧
    geomEmpty.errors < (Geometry.AddFace geomEmpty [1, 2] [] []).errors :=
  ⟨(c3_short_face_logged_but_stored geomEmpty [1, 2] [] []).1,
   (c3_short_face_logged_but_stored geomEmpty [1, 2] [] []).2 (by norm_num)⟩

/-- Geometry::UpdateBuffers acting on the whole state: with both GL
objects present, upload the emitted corner sequence and index list;
otherwise warn and change nothing (lines 149-152). -/
def Geometry.UpdateBuffersState (g : Geometry) : Geometry :=
  if g.vertexObjectId = 0 ∨ g.indexObjectId = 0 then g
  else { g with gpuTriangles := (UpdateBuffers g.faces).1,
                gpuIndices := (UpdateBuffers g.faces).2 }

/-- Geometry::InitializeGL (Geometry.cpp lines 308-326).  A missing
render state logs a VRB_ERROR but there is no early return: the code
falls through, generates the vertex buffer object (glGenBuffers, line
313 — embedded as assigning the fresh nonzero handle 1), and then
computes `VertexSize()`, which dereferences the null render state in
`UVLength()` (line 56).  That null dereference is embedded as
`Except.error` carrying the state reached at the crash point.  With a
render state attached the index buffer handle (2) is also generated,
both buffers are sized, and UpdateBuffers populates them. -/
def Geometry.InitializeGL (g : Geometry) : Except Geometry Geometry :=
  let g1 := match g.renderState with
            | none => { g with errors := g.errors + 1 }
            | some _ => g
  let g2 := { g1 with vertexObjectId := 1 }
  match g2.renderState with
  | none => Except.error g2
  | some _ => Except.ok (Geometry.UpdateBuffersState { g2 with indexObjectId := 2 })

/-- State in which the missing-render-state run of InitializeGL crashes:
the error has been logged and the vertex buffer handle generated. -/
def geomCrash : Geometry := { geomEmpty with errors := 1, vertexObjectId := 1 }

/-- Claim C8 (code bug): InitializeGL with no RenderState attached does
log the failure, but the operation is NOT aborted and the object does
NOT remain in the Empty state: lacking an early return, the code
generates the GPU vertex buffer handle and then dereferences the null
render state computing the vertex stride.  The run ends in the crash
state, with the vertex buffer allocated (handle ≠ 0), not in a clean
abort and not in a completed initialization. -/
theorem c8_initialize_without_renderstate :
    Geometry.InitializeGL geomEmpty = Except.error geomCrash ∧
    geomCrash.vertexObjectId ≠ 0 ∧
    geomCrash.errors = geomEmpty.errors + 1 ∧
    (∀ g' : Geometry, Geometry.InitializeGL geomEmpty ≠ Except.ok g') := by
  refine ⟨rfl, by norm_num [geomCrash], rfl, ?_⟩
  intro g' h
  rw [show Geometry.InitializeGL geomEmpty = Except.error geomCrash from rfl] at h
  exact Except.noConfusion h

theorem Vec3.ext' (a b : Vec3) (hx : a.x = b.x) (hy : a.y = b.y) (hz : a.z = b.z) :
    a = b := by
  cases a
  cases b
  rw [Vec3.mk.injEq]
  exact ⟨hx, hy, hz⟩

theorem getD_set_self {α : Type} :
    ∀ (l : List α) (i : Nat) (a d : α), i < l.length → (l.set i a).getD i d = a
  | [], i, a, d, h => absurd h (by simp)
  | x :: xs, 0, a, d, _ => rfl
  | x :: xs, i + 1, a, d, h => by
    simp only [List.set_cons_succ, List.getD_cons_succ]
    exact getD_set_self xs i a d (by simpa using h)

theorem SetNormalCount_length (va : VertexArray) (n : Nat) :
    (va.SetNormalCount n).normals.length = max va.normals.length n := by
  rw [VertexArray.SetNormalCount]
  split
  · simp only [List.length_append, List.length_replicate]
    omega
  · omega

/-- Empty vertex pool: all four attribute containers empty. -/
def emptyPool : VertexArray := ⟨[], [], [], []⟩

theorem divScalar_one (a : Vec3) : Vec3.divScalar a 1 = a := by
  apply Vec3.ext' <;> simp [Vec3.divScalar]

theorem smul_zero_zero_add (a : Vec3) :
    Vec3.add (Vec3.smul NormalState.default.count NormalState.default.normal) a = a := by
  apply Vec3.ext' <;> simp [Vec3.smul, Vec3.add, Vec3.zero, NormalState.default]

theorem default_count_add_one : NormalState.default.count + 1 = (1 : ℝ) := by
  norm_num [NormalState.default]

theorem AddNormal_fresh (a : Vec3) :
    (emptyPool.AddNormal 0 a).normals = [⟨a.normalize, 1⟩] := by
  simp only [VertexArray.AddNormal, if_neg (by norm_num : ¬ (0 : Int) < 0)]
  norm_num [VertexArray.SetNormalCount, emptyPool, List.replicate_one, List.getD_cons_zero,
    List.set_cons_zero, List.cons.injEq, NormalState.mk.injEq, smul_zero_zero_add,
    default_count_add_one, divScalar_one]

/-- Claim C6 (amended): each AddNormal call at a nonnegative slot i
replaces the slot content with the pair
(normalize((old_normal × old_count + contribution) / (old_count + 1)),
old_count + 1), where the old content is read from the pool grown to
cover slot i (fresh slots start at zero count with the zero normal).
In particular a single contribution to a fresh slot stores
normalize(contribution / 1) with count 1.  Because the running value is
re-normalized at every step, after k ≥ 2 contributions the stored
normal is in general neither normalize(Σ contributions / k) nor
independent of the contribution order (see the counterexample). -/
theorem c6_addnormal_update (va : VertexArray) (i : Nat) (a : Vec3) :
    ((va.AddNormal i a).normals.getD i NormalState.default =
      ⟨Vec3.normalize (Vec3.divScalar
          (Vec3.add (Vec3.smul ((va.SetNormalCount (i + 1)).normals.getD i
              NormalState.default).count
            ((va.SetNormalCount (i + 1)).normals.getD i NormalState.default).normal) a)
          (((va.SetNormalCount (i + 1)).normals.getD i NormalState.default).count + 1)),
        ((va.SetNormalCount (i + 1)).normals.getD i NormalState.default).count + 1⟩) ∧
    (emptyPool.AddNormal 0 a).normals.getD 0 NormalState.default =
      ⟨Vec3.normalize (Vec3.divScalar a 1), 1⟩ := by
  constructor
  · simp only [VertexArray.AddNormal, if_neg (not_lt.mpr (Int.natCast_nonneg i)),
      Int.toNat_natCast]
    exact getD_set_self _ i _ _ (by rw [SetNormalCount_length]; omega)
  · rw [AddNormal_fresh, List.getD_cons_zero, NormalState.mk.injEq]
    refine ⟨?_, rfl⟩
    congr 1
    apply Vec3.ext' <;> simp [Vec3.divScalar]

theorem AddNormal_second (n0 b : Vec3) (va : VertexArray) (h : va.normals = [⟨n0, 1⟩]) :
    (va.AddNormal 0 b).normals =
      [⟨Vec3.normalize (Vec3.divScalar (Vec3.add (Vec3.smul 1 n0) b) 2), 2⟩] := by
  simp only [VertexArray.AddNormal, if_neg (by norm_num : ¬ (0 : Int) < 0)]
  norm_num [VertexArray.SetNormalCount, h, List.getD_cons_zero, List.set_cons_zero,
    List.cons.injEq, NormalState.mk.injEq]

/-- First accumulated contribution of the C6 scenario: a flat normal of
magnitude 2 along the x axis. -/
noncomputable def vecA : Vec3 := ⟨2, 0, 0⟩

/-- Second accumulated contribution of the C6 scenario: a unit normal
along the y axis. -/
noncomputable def vecB : Vec3 := ⟨0, 1, 0⟩

/-- Pool after accumulating vecA then vecB at slot 0. -/
noncomputable def poolAB : VertexArray := (emptyPool.AddNormal 0 vecA).AddNormal 0 vecB

/-- Pool after accumulating vecB then vecA at slot 0. -/
noncomputable def poolBA : VertexArray := (emptyPool.AddNormal 0 vecB).AddNormal 0 vecA

/-- Normal stored at slot 0 after the A-then-B accumulation. -/
noncomputable def storedAB : Vec3 := (poolAB.normals.getD 0 NormalState.default).normal

/-- Normal stored at slot 0 after the B-then-A accumulation. -/
noncomputable def storedBA : Vec3 := (poolBA.normals.getD 0 NormalState.default).normal

/-- Value the claim predicts for both accumulation orders:
normalize of the mean of the two contributions. -/
noncomputable def claimedMean : Vec3 := Vec3.normalize (Vec3.divScalar (Vec3.add vecA vecB) 2)

theorem normalize_vecA : vecA.normalize = ⟨1, 0, 0⟩ := by
  simp only [Vec3.normalize, Vec3.magnitude, vecA]
  rw [show (2 * 2 + 0 * 0 + 0 * 0 : ℝ) = 2 ^ 2 by norm_num,
    Real.sqrt_sq (by norm_num : (0 : ℝ) ≤ 2)]
  apply Vec3.ext' <;> norm_num [Vec3.divScalar]

theorem normalize_vecB : vecB.normalize = ⟨0, 1, 0⟩ := by
  simp only [Vec3.normalize, Vec3.magnitude, vecB]
  rw [show (0 * 0 + 1 * 1 + 0 * 0 : ℝ) = 1 by norm_num, Real.sqrt_one]
  apply Vec3.ext' <;> norm_num [Vec3.divScalar]

theorem poolAB_normals : poolAB.normals = [⟨Vec3.normalize ⟨1 / 2, 1 / 2, 0⟩, 2⟩] := by
  have h1 : (emptyPool.AddNormal 0 vecA).normals = [⟨⟨1, 0, 0⟩, 1⟩] := by
    rw [AddNormal_fresh, normalize_vecA]
  rw [poolAB, AddNormal_second ⟨1, 0, 0⟩ vecB _ h1]
  have hv : Vec3.divScalar (Vec3.add (Vec3.smul 1 ⟨1, 0, 0⟩) vecB) 2 =
      (⟨1 / 2, 1 / 2, 0⟩ : Vec3) := by
    apply Vec3.ext' <;> norm_num [Vec3.smul, Vec3.add, Vec3.divScalar, vecB]
  rw [hv]

theorem poolBA_normals : poolBA.normals = [⟨Vec3.normalize ⟨1, 1 / 2, 0⟩, 2⟩] := by
  have h1 : (emptyPool.AddNormal 0 vecB).normals = [⟨⟨0, 1, 0⟩, 1⟩] := by
    rw [AddNormal_fresh, normalize_vecB]
  rw [poolBA, AddNormal_second ⟨0, 1, 0⟩ vecA _ h1]
  have hv : Vec3.divScalar (Vec3.add (Vec3.smul 1 ⟨0, 1, 0⟩) vecA) 2 =
      (⟨1, 1 / 2, 0⟩ : Vec3) := by
    apply Vec3.ext' <;> norm_num [Vec3.smul, Vec3.add, Vec3.divScalar, vecA]
  rw [hv]

theorem storedAB_eq : storedAB = Vec3.normalize ⟨1 / 2, 1 / 2, 0⟩ := by
  rw [storedAB, poolAB_normals, List.getD_cons_zero]

theorem storedBA_eq : storedBA = Vec3.normalize ⟨1, 1 / 2, 0⟩ := by
  rw [storedBA, poolBA_normals, List.getD_cons_zero]

theorem claimedMean_eq : claimedMean = Vec3.normalize ⟨1, 1 / 2, 0⟩ := by
  rw [claimedMean]
  have hv : Vec3.divScalar (Vec3.add vecA vecB) 2 = (⟨1, 1 / 2, 0⟩ : Vec3) := by
    apply Vec3.ext' <;> norm_num [Vec3.smul, Vec3.add, Vec3.divScalar, vecA, vecB]
  rw [hv]

theorem storedAB_sym : storedAB.x = storedAB.y := by
  rw [storedAB_eq]
  simp [Vec3.normalize, Vec3.divScalar]

theorem mean_mag_pos : (0 : ℝ) < (⟨1, 1 / 2, 0⟩ : Vec3).magnitude := by
  simp only [Vec3.magnitude]
  apply Real.sqrt_pos.mpr
  norm_num

theorem mean_mag_lt : (⟨1, 1 / 2, 0⟩ : Vec3).magnitude < 3 / 2 := by
  simp only [Vec3.magnitude]
  rw [show (1 * 1 + 1 / 2 * (1 / 2) + 0 * 0 : ℝ) = 5 / 4 by norm_num]
  have h2 : Real.sqrt (5 / 4) < Real.sqrt ((3 / 2) ^ 2) := by
    apply Real.sqrt_lt_sqrt (by norm_num)
    norm_num
  rw [Real.sqrt_sq (by norm_num : (0 : ℝ) ≤ 3 / 2)] at h2
  exact h2

theorem claimed_gap : (1 : ℝ) / 3 < claimedMean.x - claimedMean.y := by
  rw [claimedMean_eq]
  simp only [Vec3.normalize, Vec3.divScalar]
  have hp := mean_mag_pos
  have hl := mean_mag_lt
  rw [div_sub_div_same, lt_div_iff₀ hp]
  linarith

/-- Claim C6 counterexample: accumulate A = (2,0,0) then B = (0,1,0) at
a fresh slot.  The claim predicts the stored normal is
normalize((A+B)/2), whose x and y components differ by more than 1/3;
but the code re-normalizes after the first step, so the stored normal
has equal x and y components — off by far more than floating-point
tolerance.  Accumulating in the order B then A yields exactly
normalize((A+B)/2), so the result also depends on the order. -/
theorem c6_counterexample :
    storedAB.x = storedAB.y ∧
    (1 : ℝ) / 3 < claimedMean.x - claimedMean.y ∧
    storedAB ≠ claimedMean ∧
    storedBA = claimedMean ∧
    storedAB ≠ storedBA := by
  have h1 := storedAB_sym
  have h2 := claimed_gap
  have hne : storedAB ≠ claimedMean := by
    intro h
    have hx := congrArg Vec3.x h
    have hy := congrArg Vec3.y h
    rw [h1] at hx
    linarith
  have hba : storedBA = claimedMean := storedBA_eq.trans claimedMean_eq.symm
  exact ⟨h1, h2, hne, hba, fun h => hne (h.trans hba)⟩

theorem getD_append_length {α : Type} :
    ∀ (l : List α) (x d : α), (l ++ [x]).getD l.length d = x
  | [], _, _ => rfl
  | y :: ys, x, d => by
    simp only [List.cons_append, List.length_cons, List.getD_cons_succ]
    exact getD_append_length ys x d

theorem getD_set_ne {α : Type} :
    ∀ (l : List α) (i j : Nat) (a d : α), i ≠ j → (l.set i a).getD j d = l.getD j d
  | [], _, _, _, _, _ => rfl
  | _ :: _, 0, 0, _, _, h => absurd rfl h
  | x :: xs, 0, j + 1, a, d, _ => by
    simp only [List.set_cons_zero, List.getD_cons_succ]
  | x :: xs, i + 1, 0, a, d, _ => by
    simp only [List.set_cons_succ, List.getD_cons_zero]
  | x :: xs, i + 1, j + 1, a, d, h => by
    simp only [List.set_cons_succ, List.getD_cons_succ]
    exact getD_set_ne xs i j a d (by omega)

theorem SetNormalCount_noop (va : VertexArray) (n : Nat) (h : n ≤ va.normals.length) :
    va.SetNormalCount n = va := by
  rw [VertexArray.SetNormalCount, if_neg (by omega)]

theorem foldl_AddNormal_facts (normal : Vec3) (n1 : Nat) :
    ∀ (ks : List Nat) (va2 : VertexArray),
      va2.normals.length = n1 + 1 →
      (∀ k ∈ ks, 1 ≤ k ∧ k ≤ n1) →
      ((ks.foldl (fun acc ix => if (0.00001 : ℝ) < normal.magnitude
          then acc.AddNormal ((ix : Int) - 1) normal else acc) va2).normals.length = n1 + 1 ∧
        (ks.foldl (fun acc ix => if (0.00001 : ℝ) < normal.magnitude
          then acc.AddNormal ((ix : Int) - 1) normal else acc) va2).normals.getD n1
          NormalState.default = va2.normals.getD n1 NormalState.default) := by
  intro ks
  induction ks with
  | nil => intro va2 hlen _; exact ⟨hlen, rfl⟩
  | cons k ks ih =>
    intro va2 hlen hb
    have hk := hb k (by simp)
    have hrest : ∀ q ∈ ks, 1 ≤ q ∧ q ≤ n1 := fun q h => hb q (by simp [h])
    simp only [List.foldl_cons]
    by_cases hmag : (0.00001 : ℝ) < normal.magnitude
    · rw [if_pos hmag]
      have hknat : ((k : Int) - 1).toNat = k - 1 := by omega
      have hstep_len : (va2.AddNormal ((k : Int) - 1) normal).normals.length = n1 + 1 := by
        simp only [VertexArray.AddNormal, if_neg (show ¬ ((k : Int) - 1 < 0) by omega), hknat,
          SetNormalCount_noop va2 (k - 1 + 1) (by omega), List.length_set]
        exact hlen
      have hstep_getD : (va2.AddNormal ((k : Int) - 1) normal).normals.getD n1
          NormalState.default = va2.normals.getD n1 NormalState.default := by
        simp only [VertexArray.AddNormal, if_neg (show ¬ ((k : Int) - 1 < 0) by omega), hknat,
          SetNormalCount_noop va2 (k - 1 + 1) (by omega)]
        exact getD_set_ne _ (k - 1) n1 _ _ (by omega)
      have hrec := ih (va2.AddNormal ((k : Int) - 1) normal) hstep_len hrest
      exact ⟨hrec.1, hrec.2.trans hstep_getD⟩
    · rw [if_neg hmag]
      exact ih va2 hlen hrest

/-- Claim C10: whenever AddFace takes the derived-flat-normal path
(normal index list empty or first entry 0) with a vertex pool attached,
the computed flat normal is unconditionally appended to the normal pool
as a brand-new entry with contribution count 1, sitting at the slot one
past the SetNormalCount-grown extent — the pool's normal count becomes
that extent plus one — even when the computed normal is degenerate (the
accumulation via AddNormal is skipped then, the append is not).  The
stored face's per-vertex normal indices are set equal to its vertex
indices, and for in-range 1-based vertex references every referenced
0-based normal slot lies strictly below the appended slot, which is
thus never referenced by the face. -/
theorem c10_derived_normal_appended (g : Geometry) (vs us ns : List Int) (va : VertexArray)
    (hva : g.vertexArray = some va)
    (hns : ¬ (0 < ns.length ∧ ns.headD 0 ≠ 0))
    (h3 : 3 ≤ vs.length)
    (hrange : ∀ v ∈ vs, 1 ≤ v ∧ v ≤ (va.vertices.length : Int))
    (hcap : va.vertices.length < 65535) :
    ∃ va' : VertexArray,
      (Geometry.AddFace g vs us ns).vertexArray = some va' ∧
      va'.normals.length = max va.normals.length va.vertices.length + 1 ∧
      va'.normals.getD (max va.normals.length va.vertices.length) NormalState.default =
        ⟨flatNormal (va.SetNormalCount va.vertices.length) vs, 1⟩ ∧
      (∃ f : Face, (Geometry.AddFace g vs us ns).faces = g.faces ++ [f] ∧
        f.normals = f.vertices ∧
        ∀ k ∈ f.normals, 1 ≤ k ∧ k - 1 < max va.normals.length va.vertices.length) := by
  have hmap : ∀ k ∈ (CopyIndecies vs).1, 1 ≤ k ∧ k ≤ va.vertices.length := by
    rw [CopyIndecies_fst]
    intro k hk
    rw [List.mem_map] at hk
    obtain ⟨v, hv, hkv⟩ := hk
    have hr := hrange v hv
    simp only [glushortMod] at hkv
    omega
  have hn1 : (va.SetNormalCount va.vertices.length).normals.length
      = max va.normals.length va.vertices.length := SetNormalCount_length va _
  have happend_len : ((va.SetNormalCount va.vertices.length).AppendNormal
      (flatNormal (va.SetNormalCount va.vertices.length) vs)).1.normals.length
      = max va.normals.length va.vertices.length + 1 := by
    simp only [VertexArray.AppendNormal, List.length_append, List.length_cons,
      List.length_nil, hn1]
  have happend_getD : ((va.SetNormalCount va.vertices.length).AppendNormal
      (flatNormal (va.SetNormalCount va.vertices.length) vs)).1.normals.getD
        (max va.normals.length va.vertices.length) NormalState.default
      = ⟨flatNormal (va.SetNormalCount va.vertices.length) vs, 1⟩ := by
    simp only [VertexArray.AppendNormal]
    rw [← hn1]
    exact getD_append_length _ _ _
  have hfold := foldl_AddNormal_facts (flatNormal (va.SetNormalCount va.vertices.length) vs)
      (max va.normals.length va.vertices.length) (CopyIndecies vs).1
      ((va.SetNormalCount va.vertices.length).AppendNormal
        (flatNormal (va.SetNormalCount va.vertices.length) vs)).1 happend_len
      (fun k hk => ⟨(hmap k hk).1, le_trans (hmap k hk).2 (Nat.le_max_right _ _)⟩)
  simp only [Geometry.AddFace, if_neg hns, hva]
  refine ⟨_, rfl, hfold.1, hfold.2.trans happend_getD, _, rfl, rfl, ?_⟩
  intro k hk
  have := hmap k hk
  constructor
  · omega
  · omega

/-- Vertex pool with the three vertices of the spec's end-to-end
scenario, used to instantiate the derived-normal claim. -/
noncomputable def pool3 : VertexArray := ⟨[⟨0, 0, 0⟩, ⟨1, 0, 0⟩, ⟨0, 1, 0⟩], [], [], []⟩

/-- Fresh geometry with pool3 attached as its vertex array. -/
noncomputable def geomWithPool : Geometry := { geomEmpty with vertexArray := some pool3 }

theorem c10_derived_normal_appended_witness :
    ∃ va' : VertexArray,
      (Geometry.AddFace geomWithPool [1, 2, 3] [] []).vertexArray = some va' ∧
      va'.normals.length = max pool3.normals.length pool3.vertices.length + 1 ∧
      va'.normals.getD (max pool3.normals.length pool3.vertices.length) NormalState.default =
        ⟨flatNormal (pool3.SetNormalCount pool3.vertices.length) [1, 2, 3], 1⟩ ∧
      (∃ f : Face, (Geometry.AddFace geomWithPool [1, 2, 3] [] []).faces =
          geomWithPool.faces ++ [f] ∧
        f.normals = f.vertices ∧
        ∀ k ∈ f.normals, 1 ≤ k ∧ k - 1 < max pool3.normals.length pool3.vertices.length) :=
  c10_derived_normal_appended geomWithPool [1, 2, 3] [] [] pool3 rfl (by simp)
    (by norm_num) (by norm_num [pool3]) (by norm_num [pool3])

end Vrb
